import Mathlib

/-!
Verification of the getOrInsert helper from
packages/toolkit/src/query/utils/getOrInsert.ts.

The TypeScript source is:

  export function getOrInsert<K, V>(map: Map<K, V>, key: K, value: V): V {
    if (map.has(key)) return map.get(key) as V
    return map.set(key, value).get(key) as V
  }

We embed a JS Map as an association list of key/value pairs.  The three
Map operations used by the source are modelled after ECMAScript Map
semantics: has tests membership of the key, get returns an Option (the
JS get may return undefined, which the source silences with an as-cast),
and set overwrites the value in place when the key is present and
appends a fresh entry otherwise, returning the updated map (JS set
returns the map itself, enabling the chained set-then-get in the
source).  getOrInsert then follows the source line by line, returning
the looked-up Option together with the resulting map state.
-/

namespace GetOrInsertSpec

/-- A key/value mapping, embedding a JS Map as its list of entries in
insertion order. -/
structure Mapping (K V : Type) where
  entries : List (K × V)
deriving DecidableEq

variable {K V : Type} [DecidableEq K]

/-- Membership test on the entry list, modelling Map.prototype.has. -/
def hasEntry : List (K × V) → K → Bool
  | [], _ => false
  | (k2, _) :: t, k => if k2 = k then true else hasEntry t k

/-- Lookup on the entry list, modelling Map.prototype.get; none plays
the role of undefined. -/
def getEntry : List (K × V) → K → Option V
  | [], _ => none
  | (k2, v2) :: t, k => if k2 = k then some v2 else getEntry t k

/-- Update on the entry list, modelling Map.prototype.set: overwrite in
place when the key is present, append otherwise. -/
def setEntry : List (K × V) → K → V → List (K × V)
  | [], k, v => [(k, v)]
  | (k2, v2) :: t, k, v =>
    if k2 = k then (k2, v) :: t else (k2, v2) :: setEntry t k v

/-- Map.prototype.has lifted to Mapping. -/
def Mapping.has (m : Mapping K V) (k : K) : Bool :=
  hasEntry m.entries k

/-- Map.prototype.get lifted to Mapping. -/
def Mapping.get (m : Mapping K V) (k : K) : Option V :=
  getEntry m.entries k

/-- Map.prototype.set lifted to Mapping; as in JS, the result is the
updated map, so calls can be chained. -/
def Mapping.set (m : Mapping K V) (k : K) (v : V) : Mapping K V :=
  ⟨setEntry m.entries k v⟩

/-- Embedding of the source function getOrInsert.  The first component
is the value the call returns (an Option, since both returns in the
source cast a possibly-undefined get result), the second is the map
state after the call. -/
def getOrInsert (m : Mapping K V) (k : K) (v : V) : Option V × Mapping K V :=
  if m.has k then (m.get k, m)
  else
    let m2 := m.set k v
    (m2.get k, m2)

/-- The mapping invariant: each key occurs at most once in the entry
list, so at most one value is associated with any key. -/
def Mapping.WF (m : Mapping K V) : Prop :=
  (m.entries.map Prod.fst).Nodup

/-! ### Lemmas about the entry-list operations -/

theorem hasEntry_eq_isSome (l : List (K × V)) (k : K) :
    hasEntry l k = (getEntry l k).isSome := by
  induction l with
  | nil => rfl
  | cons p t ih =>
    obtain ⟨k2, v2⟩ := p
    simp only [hasEntry, getEntry]
    by_cases h : k2 = k <;> simp [h, ih]

theorem getEntry_setEntry_self (l : List (K × V)) (k : K) (v : V) :
    getEntry (setEntry l k v) k = some v := by
  induction l with
  | nil => simp [setEntry, getEntry]
  | cons p t ih =>
    obtain ⟨k2, v2⟩ := p
    simp only [setEntry]
    by_cases h : k2 = k
    · simp [getEntry, h]
    · simp [getEntry, h, ih]

theorem getEntry_setEntry_other (l : List (K × V)) (k k2 : K) (v : V)
    (hne : k2 ≠ k) :
    getEntry (setEntry l k v) k2 = getEntry l k2 := by
  induction l with
  | nil =>
    simp [setEntry, getEntry, Ne.symm hne]
  | cons p t ih =>
    obtain ⟨k3, v3⟩ := p
    simp only [setEntry]
    by_cases h : k3 = k
    · subst h
      simp [getEntry, Ne.symm hne]
    · simp only [if_neg h, getEntry, ih]

theorem setEntry_of_absent (l : List (K × V)) (k : K) (v : V)
    (h : hasEntry l k = false) :
    setEntry l k v = l ++ [(k, v)] := by
  induction l with
  | nil => rfl
  | cons p t ih =>
    obtain ⟨k2, v2⟩ := p
    simp only [hasEntry] at h
    by_cases hk : k2 = k
    · simp [hk] at h
    · simp only [setEntry, if_neg hk, List.cons_append, List.cons.injEq,
        true_and]
      exact ih (by simpa [hk] using h)

theorem hasEntry_iff_mem (l : List (K × V)) (k : K) :
    hasEntry l k = true ↔ k ∈ l.map Prod.fst := by
  induction l with
  | nil => simp [hasEntry]
  | cons p t ih =>
    obtain ⟨k2, v2⟩ := p
    simp only [hasEntry, List.map_cons, List.mem_cons]
    by_cases h : k2 = k
    · simp [h]
    · rw [if_neg h, ih]
      constructor
      · exact fun hm => Or.inr hm
      · intro hm
        rcases hm with hm | hm
        · exact absurd hm.symm h
        · exact hm

theorem keys_setEntry (l : List (K × V)) (k : K) (v : V) :
    (setEntry l k v).map Prod.fst =
      if hasEntry l k then l.map Prod.fst else l.map Prod.fst ++ [k] := by
  by_cases h : hasEntry l k
  · rw [if_pos h]
    induction l with
    | nil => simp [hasEntry] at h
    | cons p t ih =>
      obtain ⟨k2, v2⟩ := p
      simp only [hasEntry] at h
      by_cases hk : k2 = k
      · simp [setEntry, hk]
      · simp only [setEntry, if_neg hk, List.map_cons, List.cons.injEq,
          true_and]
        exact ih (by simpa [hk] using h)
  · rw [if_neg h, setEntry_of_absent l k v (by simpa using h)]
    simp

theorem setEntry_wf (l : List (K × V)) (k : K) (v : V)
    (h : (l.map Prod.fst).Nodup) :
    ((setEntry l k v).map Prod.fst).Nodup := by
  rw [keys_setEntry]
  by_cases hk : hasEntry l k
  · simpa [hk] using h
  · have hmem : k ∉ l.map Prod.fst := by
      intro hm
      exact absurd ((hasEntry_iff_mem l k).mpr hm) (by simpa using hk)
    simp [hk, List.nodup_append, h, hmem]

/-! ### Derived facts at the Mapping level -/

theorem Mapping.get_set_self (m : Mapping K V) (k : K) (v : V) :
    (m.set k v).get k = some v :=
  getEntry_setEntry_self m.entries k v

theorem Mapping.get_set_other (m : Mapping K V) (k k2 : K) (v : V)
    (hne : k2 ≠ k) : (m.set k v).get k2 = m.get k2 :=
  getEntry_setEntry_other m.entries k k2 v hne

theorem Mapping.has_set_self (m : Mapping K V) (k : K) (v : V) :
    (m.set k v).has k = true := by
  simp only [Mapping.has, Mapping.set, hasEntry_eq_isSome,
    getEntry_setEntry_self, Option.isSome_some]

/-- The hit path of the source: when the key is present, getOrInsert
returns the current get result and leaves the map untouched. -/
theorem getOrInsert_hit (m : Mapping K V) (k : K) (v : V)
    (h : m.has k = true) : getOrInsert m k v = (m.get k, m) := by
  simp [getOrInsert, h]

/-- The miss path of the source: when the key is absent, getOrInsert
sets the key to the fallback value and returns the re-read get result
on the updated map. -/
theorem getOrInsert_miss (m : Mapping K V) (k : K) (v : V)
    (h : m.has k = false) :
    getOrInsert m k v = ((m.set k v).get k, m.set k v) := by
  simp [getOrInsert, h]

/-! ### The claims -/

/-- Claim C1: for every mapping m, key k and value v, after the call
getOrInsert m k v the resulting mapping contains an association for k,
and the value the call returns equals the value stored for k in the
mapping immediately after the call. -/
theorem C1_presence_and_return_matches_stored
    (m : Mapping K V) (k : K) (v : V) :
    (getOrInsert m k v).2.has k = true ∧
    (getOrInsert m k v).1 = (getOrInsert m k v).2.get k := by
  by_cases h : m.has k = true
  · rw [getOrInsert_hit m k v h]
    exact ⟨h, rfl⟩
  · rw [getOrInsert_miss m k v (by simpa using h)]
    exact ⟨m.has_set_self k v, rfl⟩

/-- Claim C2: if k is already associated with v0 in m, then
getOrInsert m k v1 returns v0 and leaves the mapping unchanged; the
fallback value v1 is not stored. -/
theorem C2_no_overwrite (m : Mapping K V) (k : K) (v0 v1 : V)
    (h : m.get k = some v0) :
    getOrInsert m k v1 = (some v0, m) := by
  have hhas : m.has k = true := by
    simp only [Mapping.has, hasEntry_eq_isSome]
    simp only [Mapping.get] at h
    simp [h]
  rw [getOrInsert_hit m k v1 hhas, h]

theorem C2_no_overwrite_witness :
    (⟨[(0, 5)]⟩ : Mapping Nat Nat).get 0 = some 5 ∧
    getOrInsert (⟨[(0, 5)]⟩ : Mapping Nat Nat) 0 7 = (some 5, ⟨[(0, 5)]⟩) :=
  ⟨by decide, C2_no_overwrite ⟨[(0, 5)]⟩ 0 5 7 (by decide)⟩

/-- Claim C3: when k is absent from m, getOrInsert m k v associates k
with v in the mapping and returns the value associated with k as
re-read from the mapping after the insertion. -/
theorem C3_miss_inserts_and_rereads (m : Mapping K V) (k : K) (v : V)
    (h : m.has k = false) :
    (getOrInsert m k v).2 = m.set k v ∧
    (getOrInsert m k v).1 = (m.set k v).get k ∧
    (getOrInsert m k v).2.get k = some v := by
  rw [getOrInsert_miss m k v h]
  exact ⟨rfl, rfl, m.get_set_self k v⟩

theorem C3_miss_inserts_and_rereads_witness :
    (⟨[]⟩ : Mapping Nat Nat).has 0 = false ∧
    (getOrInsert (⟨[]⟩ : Mapping Nat Nat) 0 4).2.get 0 = some 4 :=
  ⟨by decide, (C3_miss_inserts_and_rereads ⟨[]⟩ 0 4 (by decide)).2.2⟩

/-- Claim C4: getOrInsert m k v mutates the mapping by at most adding
one new entry for k when k was absent; it never removes an entry,
never overwrites an existing entry, and leaves the association of
every key other than k unchanged. -/
theorem C4_frame (m : Mapping K V) (k : K) (v : V) :
    (m.has k = true → (getOrInsert m k v).2 = m) ∧
    (m.has k = false →
      (getOrInsert m k v).2.entries = m.entries ++ [(k, v)]) ∧
    (∀ k2, k2 ≠ k → (getOrInsert m k v).2.get k2 = m.get k2) := by
  refine ⟨fun h => ?_, fun h => ?_, fun k2 hne => ?_⟩
  · rw [getOrInsert_hit m k v h]
  · rw [getOrInsert_miss m k v h]
    exact setEntry_of_absent m.entries k v h
  · by_cases h : m.has k = true
    · rw [getOrInsert_hit m k v h]
    · rw [getOrInsert_miss m k v (by simpa using h)]
      exact m.get_set_other k k2 v hne

theorem C4_frame_witness :
    (1 : Nat) ≠ 0 ∧
    (getOrInsert (⟨[(0, 5)]⟩ : Mapping Nat Nat) 0 7).2.get 1 =
      (⟨[(0, 5)]⟩ : Mapping Nat Nat).get 1 :=
  ⟨by decide, (C4_frame ⟨[(0, 5)]⟩ 0 7).2.2 1 (by decide)⟩

/-- Claim C5: for k absent from m and v2 different from v, calling
getOrInsert m k v and then getOrInsert again with k and v2 returns v
from both calls, and afterwards the mapping still maps k to v and not
to v2; the second call leaves the mapping state unchanged. -/
theorem C5_idempotent_insert (m : Mapping K V) (k : K) (v v2 : V)
    (habs : m.has k = false) (hne : v2 ≠ v) :
    (getOrInsert m k v).1 = some v ∧
    (getOrInsert (getOrInsert m k v).2 k v2).1 = some v ∧
    (getOrInsert (getOrInsert m k v).2 k v2).2 = (getOrInsert m k v).2 ∧
    (getOrInsert m k v).2.get k = some v ∧
    (getOrInsert m k v).2.get k ≠ some v2 := by
  have h1 := getOrInsert_miss m k v habs
  have h2 := getOrInsert_hit (m.set k v) k v2 (m.has_set_self k v)
  refine ⟨?_, ?_, ?_, ?_, ?_⟩ <;>
    simp [h1, h2, Mapping.get_set_self, Ne.symm hne]

theorem C5_idempotent_insert_witness :
    (⟨[]⟩ : Mapping Nat Nat).has 0 = false ∧ (2 : Nat) ≠ 1 ∧
    (getOrInsert (⟨[]⟩ : Mapping Nat Nat) 0 1).1 = some 1 ∧
    (getOrInsert (getOrInsert (⟨[]⟩ : Mapping Nat Nat) 0 1).2 0 2).1 =
      some 1 :=
  ⟨by decide, by decide,
    (C5_idempotent_insert ⟨[]⟩ 0 1 2 (by decide) (by decide)).1,
    (C5_idempotent_insert ⟨[]⟩ 0 1 2 (by decide) (by decide)).2.1⟩

/-- Claim C6: starting from the empty mapping, getOrInsert with key x
and value 1 returns 1 and stores x mapped to 1; a second call with key
x and value 2 returns 1 and changes nothing; a third call with key y
and value 3 returns 3, after which the mapping holds x mapped to 1 and
y mapped to 3. -/
theorem C6_scenario :
    (getOrInsert (⟨[]⟩ : Mapping String Nat) "x" 1).1 = some 1 ∧
    (getOrInsert (⟨[]⟩ : Mapping String Nat) "x" 1).2.entries =
      [("x", 1)] ∧
    (getOrInsert (getOrInsert (⟨[]⟩ : Mapping String Nat) "x" 1).2
      "x" 2).1 = some 1 ∧
    (getOrInsert (getOrInsert (⟨[]⟩ : Mapping String Nat) "x" 1).2
      "x" 2).2.entries = [("x", 1)] ∧
    (getOrInsert (getOrInsert (getOrInsert (⟨[]⟩ : Mapping String Nat)
      "x" 1).2 "x" 2).2 "y" 3).1 = some 3 ∧
    (getOrInsert (getOrInsert (getOrInsert (⟨[]⟩ : Mapping String Nat)
      "x" 1).2 "x" 2).2 "y" 3).2.entries = [("x", 1), ("y", 3)] :=
  ⟨rfl, rfl, rfl, rfl, rfl, rfl⟩

/-- Claim C7: getOrInsert is total: on every mapping, key and value the
call produces an actual value, so the possibly-undefined branches of
the two casts in the source (a lookup coming back empty after presence
was established, or after insertion) are unreachable. -/
theorem C7_total (m : Mapping K V) (k : K) (v : V) :
    ((getOrInsert m k v).1).isSome = true := by
  by_cases h : m.has k = true
  · rw [getOrInsert_hit m k v h]
    simp only [Mapping.has, hasEntry_eq_isSome] at h
    simpa [Mapping.get] using h
  · rw [getOrInsert_miss m k v (by simpa using h)]
    simp [m.get_set_self k v]

/-- Claim C8: the invariant that at most one value is associated with a
given key is preserved by every call: if the mapping is well-formed
before getOrInsert, it is well-formed after. -/
theorem C8_wf_preserved (m : Mapping K V) (k : K) (v : V)
    (h : m.WF) : ((getOrInsert m k v).2).WF := by
  by_cases hk : m.has k = true
  · rw [getOrInsert_hit m k v hk]
    exact h
  · rw [getOrInsert_miss m k v (by simpa using hk)]
    exact setEntry_wf m.entries k v h

theorem C8_wf_preserved_witness :
    ((getOrInsert (⟨[(0, 1)]⟩ : Mapping Nat Nat) 2 3).2).WF :=
  C8_wf_preserved ⟨[(0, 1)]⟩ 2 3 (by simp [Mapping.WF])

/-- Claim C9: getOrInsert is deterministic: equal mapping states, keys
and values produce equal returned values and equal resulting mapping
states. -/
theorem C9_deterministic (m1 m2 : Mapping K V) (k1 k2 : K)
    (v1 v2 : V) (hm : m1 = m2) (hk : k1 = k2) (hv : v1 = v2) :
    getOrInsert m1 k1 v1 = getOrInsert m2 k2 v2 := by
  rw [hm, hk, hv]

theorem C9_deterministic_witness :
    getOrInsert (⟨[]⟩ : Mapping Nat Nat) 0 1 =
      getOrInsert (⟨[]⟩ : Mapping Nat Nat) 0 1 :=
  C9_deterministic ⟨[]⟩ ⟨[]⟩ 0 0 1 1 rfl rfl rfl

/-- Claim C10: on the miss path the returned value is exactly the
fallback argument: with the standard mapping semantics embedded here,
the re-read after insertion never yields a different value. -/
theorem C10_miss_returns_fallback (m : Mapping K V) (k : K) (v : V)
    (h : m.has k = false) : (getOrInsert m k v).1 = some v := by
  rw [getOrInsert_miss m k v h]
  exact m.get_set_self k v

theorem C10_miss_returns_fallback_witness :
    (⟨[]⟩ : Mapping Nat Nat).has 9 = false ∧
    (getOrInsert (⟨[]⟩ : Mapping Nat Nat) 9 4).1 = some 4 :=
  ⟨by decide, C10_miss_returns_fallback ⟨[]⟩ 9 4 (by decide)⟩

end GetOrInsertSpec
